import Mathlib

/-!
Verification development for the egg-price dashboard's data normalization and
timeframe-filtering pipeline (PriceChart component and its variants).

The JavaScript source is shallowly embedded: JS `Date` objects become an
explicit `DateTime` record (local calendar fields, second granularity, matching
the fields the pipeline actually produces and compares); JS number values
coming out of `parseFloat` become exact rationals tagged with NaN/Infinity
markers (binary64 rounding is not modelled; no claim here depends on it);
fallible operations return `Option`/`Except`.
-/

namespace EggPrices

/-- A calendar date-time in local time, as produced by the chart pipeline.
`month` is 0-based (as in JS `Date`), `day` is 1-based. -/
structure DateTime where
  year : Int
  month : Nat
  day : Nat
  hour : Nat
  minute : Nat
  second : Nat
deriving DecidableEq, Repr

/-- Linear encoding of a date-time. For field-normalized date-times
(`month < 12`, `day ≤ 31`, `hour < 24`, `minute,second < 60`) this is
strictly monotone in chronological order, so comparing encodings models the
JS `Date` comparison (epoch-milliseconds order). -/
def enc (d : DateTime) : Int :=
  ((((d.year * 12 + (d.month : Int)) * 32 + (d.day : Int)) * 24 + (d.hour : Int)) * 60
      + (d.minute : Int)) * 60 + (d.second : Int)

/-- Boolean date comparison `a <= b`, modelling JS `Date` relational
comparison via the linear encoding. -/
def dateLeB (a b : DateTime) : Bool :=
  decide (enc a ≤ enc b)

/-- The fixed month-abbreviation table from the source
(`const monthMap = \x7b JAN: 0, ..., DEC: 11 \x7d`), as a lookup function. -/
def monthMap : String → Option Nat
  | "JAN" => some 0
  | "FEB" => some 1
  | "MAR" => some 2
  | "APR" => some 3
  | "MAY" => some 4
  | "JUN" => some 5
  | "JUL" => some 6
  | "AUG" => some 7
  | "SEP" => some 8
  | "OCT" => some 9
  | "NOV" => some 10
  | "DEC" => some 11
  | _ => none

/-- Models `s.toUpperCase().slice(0, 3)` on the period label (the labels are
ASCII, where JS `toUpperCase` agrees with per-character `Char.toUpper`, and
`slice` on ASCII is `take` on characters). -/
def jsAbbr3 (s : String) : String :=
  ⟨(s.toList.map Char.toUpper).take 3⟩

/-- The year argument as interpreted by the JS `Date(year, month, day)`
constructor: an integer year in 0..99 is read as 1900 + year. -/
def jsMakeYear (y : Int) : Int :=
  if 0 ≤ y ∧ y ≤ 99 then 1900 + y else y

/-- One raw upstream record, with the fields the pipeline reads:
`year`, `reference_period_desc` (month abbreviation, possibly absent) and
`Value` (numeric string, possibly absent or malformed). -/
structure Row where
  year : Int
  reference_period_desc : Option String
  Value : Option String
deriving DecidableEq, Repr

/-- `parseRefDate` from the source: uppercase and truncate the period label to
three characters, look it up in `monthMap` defaulting to 0, and build
`new Date(year, m, 1)` (midnight, day 1; the constructor applies the
two-digit-year adjustment `jsMakeYear`). The `(reference_period_desc \|\| "")`
guard is the `Option.getD` on the absent label. -/
def parseRefDate (row : Row) : DateTime :=
  let abbr := jsAbbr3 (row.reference_period_desc.getD "")
  let m := (monthMap abbr).getD 0
  { year := jsMakeYear row.year, month := m, day := 1, hour := 0, minute := 0, second := 0 }

/-- Gregorian leap-year rule, as used by JS `Date` day arithmetic. -/
def isLeapYear (y : Int) : Bool :=
  (y % 4 == 0 && y % 100 != 0) || (y % 400 == 0)

/-- Number of days in 0-based month `m` of year `y`. -/
def daysInMonth (y : Int) (m : Nat) : Nat :=
  if m = 1 then (if isLeapYear y then 29 else 28)
  else if m = 3 ∨ m = 5 ∨ m = 8 ∨ m = 10 then 30
  else 31

/-- Day-overflow normalization of JS `MakeDay`: a day-of-month that exceeds
the month length rolls into the following month. Since the stored day is at
most 31 one roll suffices. -/
def normDay (y : Int) (m : Nat) (d : Nat) : Int × Nat × Nat :=
  if d > daysInMonth y m then
    let d2 := d - daysInMonth y m
    if m = 11 then (y + 1, 0, d2) else (y, m + 1, d2)
  else (y, m, d)

/-- JS `date.setMonth(m)` for an arbitrary integer month index: the year
absorbs `floor(m / 12)`, the month becomes `m mod 12`, and the kept
day-of-month is normalized by `normDay`. -/
def jsSetMonth (dt : DateTime) (m : Int) : DateTime :=
  let y := dt.year + m.fdiv 12
  let m2 := (m.emod 12).toNat
  let n := normDay y m2 dt.day
  { dt with year := n.1, month := n.2.1, day := n.2.2 }

/-- JS `date.setFullYear(y)`: the year is replaced and the kept day-of-month
is normalized (Feb 29 of a leap year rolls to Mar 1 in a non-leap target). -/
def jsSetFullYear (dt : DateTime) (y : Int) : DateTime :=
  let n := normDay y dt.month dt.day
  { dt with year := n.1, month := n.2.1, day := n.2.2 }

/-- `getCutoffDate` from the source, with the query time `now` made an
explicit parameter (the source reads `new Date()`); the `switch` becomes an
if-chain with the same `default` branch as the `1Y` case. -/
def getCutoffDate (timeFrame : String) (now : DateTime) : DateTime :=
  if timeFrame = "1M" then jsSetMonth now ((now.month : Int) - 1)
  else if timeFrame = "3M" then jsSetMonth now ((now.month : Int) - 3)
  else if timeFrame = "6M" then jsSetMonth now ((now.month : Int) - 6)
  else if timeFrame = "1Y" then jsSetFullYear now (now.year - 1)
  else if timeFrame = "5Y" then jsSetFullYear now (now.year - 5)
  else if timeFrame = "10Y" then jsSetFullYear now (now.year - 10)
  else jsSetFullYear now (now.year - 1)

/-- Comparison key of the sort step `data.data.sort((a, b) => parseRefDate(a)
- parseRefDate(b))`: non-decreasing reference date. -/
def refDateLe (a b : Row) : Prop :=
  enc (parseRefDate a) ≤ enc (parseRefDate b)

instance : DecidableRel refDateLe :=
  fun a b => inferInstanceAs (Decidable (enc (parseRefDate a) ≤ enc (parseRefDate b)))

instance : IsTotal Row refDateLe :=
  ⟨fun a b => Int.le_total (enc (parseRefDate a)) (enc (parseRefDate b))⟩

instance : IsTrans Row refDateLe :=
  ⟨fun _ _ _ hab hbc => Int.le_trans hab hbc⟩

/-- The sort step of `fetchEggPrices`, as a comparison sort on the
`parseRefDate` key (the claims proved about it — sortedness and length
preservation — hold of any correct comparison sort, hence of the JS
engine's). -/
def sortSeries (l : List Row) : List Row :=
  l.insertionSort refDateLe

/-- The filter effect: keep exactly the rows whose parsed date is at or after
the cutoff (`fullData.filter((row) => parseRefDate(row) >= cutoff)`). -/
def filterSeries (series : List Row) (timeFrame : String) (now : DateTime) : List Row :=
  series.filter (fun row => dateLeB (getCutoffDate timeFrame now) (parseRefDate row))

/-- The distinguishable failure raised by `fetchEggPrices` when
`!data.data \|\| data.data.length === 0` (`throw new Error('No price data
available')`). -/
inductive BuildError where
  | noData
deriving DecidableEq, Repr

/-- The series-building step of `fetchEggPrices`: an absent or empty raw
collection signals `noData`; otherwise the records are sorted by reference
date. -/
def build (input : Option (List Row)) : Except BuildError (List Row) :=
  match input with
  | none => Except.error BuildError.noData
  | some [] => Except.error BuildError.noData
  | some l => Except.ok (sortSeries l)

/-- A JS number as produced by `parseFloat`: NaN, a signed infinity, or a
finite value (kept as an exact rational; binary64 rounding is not modelled
and no claim depends on it). -/
inductive JsNum where
  | nan : JsNum
  | inf : Bool → JsNum
  | num : ℚ → JsNum
deriving DecidableEq

/-- JS `StrWhiteSpaceChar` (the common ASCII cases). -/
def isWs (c : Char) : Bool :=
  c == ' ' || c == '\t' || c == '\n' || c == '\r'

/-- Decimal digit value of a character, if any. -/
def digitVal (c : Char) : Option Nat :=
  if '0' ≤ c ∧ c ≤ '9' then some (c.toNat - 48) else none

/-- Greedily split off a leading run of decimal digits. -/
def takeDigits : List Char → List Nat × List Char
  | [] => ([], [])
  | c :: rest =>
    match digitVal c with
    | some d =>
      let p := takeDigits rest
      (d :: p.1, p.2)
    | none => ([], c :: rest)

/-- Value of a digit run (most significant first; leading zeros allowed). -/
def digitsToNat (ds : List Nat) : Nat :=
  ds.foldl (fun acc d => acc * 10 + d) 0

/-- Ten to an integer power, as a rational. -/
def tenPow (e : Int) : ℚ :=
  if 0 ≤ e then (10 : ℚ) ^ e.toNat else 1 / (10 : ℚ) ^ (-e).toNat

/-- Parse an optional exponent part (`e`/`E`, optional sign, digits). As in
JS `parseFloat`, a dangling `e` with no digits is not consumed. -/
def parseExp (cs : List Char) : Int × List Char :=
  match cs with
  | c :: rest =>
    if c == 'e' || c == 'E' then
      match rest with
      | s :: rest2 =>
        if s == '+' then
          match takeDigits rest2 with
          | ([], _) => (0, cs)
          | (ds, r) => ((digitsToNat ds : Int), r)
        else if s == '-' then
          match takeDigits rest2 with
          | ([], _) => (0, cs)
          | (ds, r) => (-(digitsToNat ds : Int), r)
        else
          match takeDigits rest with
          | ([], _) => (0, cs)
          | (ds, r) => ((digitsToNat ds : Int), r)
      | [] => (0, cs)
    else (0, cs)
  | [] => (0, cs)

/-- Does the character list start with the literal `Infinity`? -/
def startsWithInfinity (cs : List Char) : Bool :=
  match cs with
  | 'I' :: 'n' :: 'f' :: 'i' :: 'n' :: 'i' :: 't' :: 'y' :: _ => true
  | _ => false

/-- Longest unsigned decimal-literal prefix (`digits [. digits] [exp]` or
`. digits [exp]`), as a rational; `none` when no such prefix exists. -/
def parseUnsignedNum (cs : List Char) : Option ℚ :=
  let ip := takeDigits cs
  match ip.1, ip.2 with
  | [], '.' :: r2 =>
    let fp := takeDigits r2
    if fp.1 = [] then none
    else
      let e := parseExp fp.2
      some ((digitsToNat fp.1 : ℚ) / (10 : ℚ) ^ fp.1.length * tenPow e.1)
  | [], _ => none
  | ds, r =>
    match r with
    | '.' :: r2 =>
      let fp := takeDigits r2
      let e := parseExp fp.2
      some (((digitsToNat ds : ℚ) + (digitsToNat fp.1 : ℚ) / (10 : ℚ) ^ fp.1.length) * tenPow e.1)
    | _ =>
      let e := parseExp r
      some ((digitsToNat ds : ℚ) * tenPow e.1)

/-- JS `parseFloat` on a string: skip leading whitespace, read an optional
sign, then the longest `Infinity`-or-decimal-literal prefix; `NaN` when no
numeric prefix exists. -/
def jsParseFloat (s : String) : JsNum :=
  match s.toList.dropWhile isWs with
  | '+' :: rest =>
    if startsWithInfinity rest then JsNum.inf false
    else
      match parseUnsignedNum rest with
      | some q => JsNum.num q
      | none => JsNum.nan
  | '-' :: rest =>
    if startsWithInfinity rest then JsNum.inf true
    else
      match parseUnsignedNum rest with
      | some q => JsNum.num (-q)
      | none => JsNum.nan
  | rest =>
    if startsWithInfinity rest then JsNum.inf false
    else
      match parseUnsignedNum rest with
      | some q => JsNum.num q
      | none => JsNum.nan

/-- `parseFloat(row.Value)` where the field may be missing or null (JS
coerces those to the strings "undefined"/"null", which have no numeric
prefix, so both give NaN). -/
def jsParseFloatField (v : Option String) : JsNum :=
  match v with
  | none => JsNum.nan
  | some s => jsParseFloat s

/-- A normalized value: the distinguished absent marker (the `null` the code
stores when `isNaN(val)`), or a concrete numeric value. -/
inductive NormValue where
  | absent : NormValue
  | num : ℚ → NormValue
  | inf : Bool → NormValue
deriving DecidableEq

/-- The value-normalization step `let val = parseFloat(row.Value); if
(isNaN(val)) val = null`. -/
def normalizeValue (v : Option String) : NormValue :=
  match jsParseFloatField v with
  | JsNum.nan => NormValue.absent
  | JsNum.num q => NormValue.num q
  | JsNum.inf b => NormValue.inf b

/-- One normalized record: the spec's `\x7b timestamp, value \x7d` pair as the
pipeline computes it (`parseRefDate` plus the value parse). -/
structure NormalizedRecord where
  timestamp : DateTime
  value : NormValue
deriving DecidableEq

/-- The Record Normalizer assembled from the source's two per-row steps. -/
def normalize (row : Row) : NormalizedRecord :=
  { timestamp := parseRefDate row, value := normalizeValue row.Value }

/-- Field-wise well-formedness of a date-time (what "a valid date-time, never
null or invalid" denotes in the embedding). -/
def ValidDateTime (d : DateTime) : Prop :=
  d.month < 12 ∧ 1 ≤ d.day ∧ d.day ≤ 31 ∧ d.hour < 24 ∧ d.minute < 60 ∧ d.second < 60

/-- Short month names used by `toLocaleDateString(..., \x7b month: 'short'
\x7d)` in the en-US locale the spec's examples use. -/
def monthShortName (m : Nat) : String :=
  if m = 0 then "Jan" else if m = 1 then "Feb" else if m = 2 then "Mar"
  else if m = 3 then "Apr" else if m = 4 then "May" else if m = 5 then "Jun"
  else if m = 6 then "Jul" else if m = 7 then "Aug" else if m = 8 then "Sep"
  else if m = 9 then "Oct" else if m = 10 then "Nov" else "Dec"

/-- The label formatting `d.toLocaleDateString(undefined, \x7b year:
'numeric', month: 'short', day: 'numeric' \x7d)`, e.g. "Jun 1, 2017". -/
def fmtDate (d : DateTime) : String :=
  monthShortName d.month ++ " " ++ toString d.day ++ ", " ++ toString d.year

/-- Label of one filtered row. -/
def rowLabel (row : Row) : String :=
  fmtDate (parseRefDate row)

/-- Chart value of one filtered row: `null` (here `none`) when the value
parse is NaN, otherwise the parsed number. -/
def rowPrice (row : Row) : Option JsNum :=
  match jsParseFloatField row.Value with
  | JsNum.nan => none
  | v => some v

/-- The label/price construction loop (`filtered.forEach` pushing into the
`labels` and `prices` arrays, in order). -/
def buildArrays (rows : List Row) : List String × List (Option JsNum) :=
  match rows with
  | [] => ([], [])
  | row :: rest =>
    let p := buildArrays rest
    (rowLabel row :: p.1, rowPrice row :: p.2)

/-- Parse exactly two decimal digits. -/
def parse2 : List Char → Option (Nat × List Char)
  | c1 :: c2 :: rest =>
    match digitVal c1, digitVal c2 with
    | some a, some b => some (10 * a + b, rest)
    | _, _ => none
  | _ => none

/-- Parse exactly four decimal digits. -/
def parse4 : List Char → Option (Nat × List Char)
  | c1 :: c2 :: c3 :: c4 :: rest =>
    match digitVal c1, digitVal c2, digitVal c3, digitVal c4 with
    | some a, some b, some c, some d => some (1000 * a + 100 * b + 10 * c + d, rest)
    | _, _, _, _ => none
  | _ => none

/-- Expect one specific character. -/
def expectChar (c : Char) : List Char → Option (List Char)
  | x :: rest => if x = c then some rest else none
  | _ => none

/-- `new Date(str)` for the ISO local date-time shape `YYYY-MM-DDTHH:MM:SS`
(the only shape this pipeline feeds it): fixed-width fields, separator
checks, range checks, and `MakeDay` day-overflow normalization; anything
else is an invalid date (`none`). -/
def jsDateParse (s : String) : Option DateTime :=
  match parse4 s.toList with
  | none => none
  | some (y, r1) =>
    match expectChar '-' r1 with
    | none => none
    | some r2 =>
      match parse2 r2 with
      | none => none
      | some (mo, r3) =>
        match expectChar '-' r3 with
        | none => none
        | some r4 =>
          match parse2 r4 with
          | none => none
          | some (da, r5) =>
            match expectChar 'T' r5 with
            | none => none
            | some r6 =>
              match parse2 r6 with
              | none => none
              | some (hh, r7) =>
                match expectChar ':' r7 with
                | none => none
                | some r8 =>
                  match parse2 r8 with
                  | none => none
                  | some (mi, r9) =>
                    match expectChar ':' r9 with
                    | none => none
                    | some r10 =>
                      match parse2 r10 with
                      | none => none
                      | some (ss, r11) =>
                        if r11 = [] ∧ 1 ≤ mo ∧ mo ≤ 12 ∧ 1 ≤ da ∧ da ≤ 31
                            ∧ hh ≤ 23 ∧ mi ≤ 59 ∧ ss ≤ 59 then
                          let n := normDay (y : Int) (mo - 1) da
                          some { year := n.1, month := n.2.1, day := n.2.2,
                                 hour := hh, minute := mi, second := ss }
                        else none

/-- JS `str.replace(' ', 'T')` with a string pattern: only the first space is
replaced. -/
def replaceFirstSpace : List Char → List Char
  | [] => []
  | c :: rest => if c = ' ' then 'T' :: rest else c :: replaceFirstSpace rest

/-- String wrapper for `replaceFirstSpace`. -/
def jsReplaceSpaceT (s : String) : String :=
  ⟨replaceFirstSpace s.toList⟩

/-- `parseLoadTime` from the load_time chart variant:
`new Date(loadTimeStr.replace(' ', 'T'))`. -/
def parseLoadTime (s : String) : Option DateTime :=
  jsDateParse (jsReplaceSpaceT s)

/-- Two-digit zero-padded printing of `n < 100`. -/
def pad2 (n : Nat) : List Char :=
  [Nat.digitChar (n / 10), Nat.digitChar (n % 10)]

/-- Four-digit zero-padded printing of `n < 10000`. -/
def pad4 (n : Nat) : List Char :=
  [Nat.digitChar (n / 1000), Nat.digitChar (n / 100 % 10),
   Nat.digitChar (n / 10 % 10), Nat.digitChar (n % 10)]

/-- The `YYYY-MM-DD` character block. -/
def datePartChars (y mo d : Nat) : List Char :=
  pad4 y ++ '-' :: pad2 mo ++ '-' :: pad2 d

/-- The `HH:MM:SS` character block. -/
def timePartChars (h mi s : Nat) : List Char :=
  pad2 h ++ ':' :: pad2 mi ++ ':' :: pad2 s

/-- A `load_time` string of the form `YYYY-MM-DD HH:MM:SS`. -/
def mkLoadStr (y mo d h mi s : Nat) : String :=
  ⟨datePartChars y mo d ++ ' ' :: timePartChars h mi s⟩

/-- The same instant written `YYYY-MM-DDTHH:MM:SS`. -/
def mkIsoStr (y mo d h mi s : Nat) : String :=
  ⟨datePartChars y mo d ++ 'T' :: timePartChars h mi s⟩

/-- Rendering of a JS number inside a template literal (finite values shown
as their rational rendering; the claims proved here depend only on equal
inputs rendering equally, which any function satisfies). -/
def jsNumToStr (v : JsNum) : String :=
  match v with
  | JsNum.nan => "NaN"
  | JsNum.inf b => if b then "-Infinity" else "Infinity"
  | JsNum.num q => toString q

/-- Rendering of a chart value (a JS number or `null`) in a template
literal. -/
def priceToStr (p : Option JsNum) : String :=
  match p with
  | none => "null"
  | some v => jsNumToStr v

/-- The explanation-cache key of the caching chart variant: the template
literal `${label}-${price}`. -/
def cacheKey (label : String) (price : Option JsNum) : String :=
  label ++ "-" ++ priceToStr price

/-- Property lookup on the cache object `cacheRef.current` (an assoc list in
which a later put for the same key shadows an earlier one). -/
def cacheLookup (k : String) : List (String × String) → Option String
  | [] => none
  | p :: rest => if p.1 = k then some p.2 else cacheLookup k rest

/-- Result of one `handleChartClick` invocation: the cache afterwards, the
explanation shown, and whether an explanation request was performed. -/
structure ClickOutcome where
  cache : List (String × String)
  explanation : String
  requested : Bool
deriving DecidableEq

/-- JS truthiness of the property read `cacheRef.current[cacheKey]`: an
absent property is `undefined` (falsy) and a stored empty string is also
falsy; any non-empty stored string is truthy. -/
def jsTruthy (v : Option String) : Bool :=
  match v with
  | none => false
  | some s => !(s == "")

/-- `handleChartClick` from the caching variant: the cache-hit test is the
truthiness check `if (cacheRef.current[cacheKey])`, so only a non-empty
stored explanation counts as a hit (shown with no request made); otherwise
the explanation endpoint is consulted (its result is this function's
`fetchResult` parameter) and a successful result is stored under the key. -/
def handleChartClick (cache : List (String × String)) (label : String)
    (price : Option JsNum) (fetchResult : Except String String) : ClickOutcome :=
  let k := cacheKey label price
  let cached := cacheLookup k cache
  if jsTruthy cached then
    { cache := cache, explanation := cached.getD "", requested := false }
  else
    match fetchResult with
    | Except.ok expl =>
      { cache := (k, expl) :: cache, explanation := expl, requested := true }
    | Except.error msg =>
      { cache := cache, explanation := "Error fetching explanation: " ++ msg,
        requested := true }

/-- Run a sequence of click events (label, price, fetch result) against the
cache, threading the cache through. -/
def processClicks (cache : List (String × String)) :
    List (String × Option JsNum × Except String String) → List (String × String)
  | [] => cache
  | e :: rest => processClicks (handleChartClick cache e.1 e.2.1 e.2.2).cache rest

/-- Concrete sample data (the spec's concrete scenario) used to instantiate
the theorems below at closed inputs. -/
def rowJan20 : Row :=
  { year := 2020, reference_period_desc := some "JAN", Value := some "1.50" }

/-- Sample row: February 2020, malformed value. -/
def rowFeb20 : Row :=
  { year := 2020, reference_period_desc := some "FEB", Value := some "abc" }

/-- Sample row: January 2021. -/
def rowJan21 : Row :=
  { year := 2021, reference_period_desc := some "JAN", Value := some "2.00" }

/-- The spec scenario's three-row series, already in date order. -/
def sampleSeries : List Row :=
  [rowJan20, rowFeb20, rowJan21]

/-- The spec scenario's query time, 2021-06-15. -/
def sampleNow : DateTime :=
  { year := 2021, month := 5, day := 15, hour := 0, minute := 0, second := 0 }

/-- Every month index in the abbreviation table is below 12. -/
theorem monthMap_lt_12 (s : String) (m : Nat) (h : monthMap s = some m) : m < 12 := by
  unfold monthMap at h
  split at h <;> simp_all <;> omega

/-- C1: for every sorted series, every timeframe window and every query time,
the filter keeps exactly the rows whose parsed date is at or after the
cutoff: every kept row is at or after the cutoff, every row at or after the
cutoff keeps its full multiplicity, rows below the cutoff do not appear, and
the result is a sublist of the series (series order). -/
theorem filter_window_exact (series : List Row) (tf : String) (now : DateTime)
    (_hs : List.Sorted refDateLe series) :
    (∀ row ∈ filterSeries series tf now,
        dateLeB (getCutoffDate tf now) (parseRefDate row) = true) ∧
    (∀ row, dateLeB (getCutoffDate tf now) (parseRefDate row) = true →
        (filterSeries series tf now).count row = series.count row) ∧
    (∀ row, dateLeB (getCutoffDate tf now) (parseRefDate row) = false →
        row ∉ filterSeries series tf now) ∧
    (filterSeries series tf now).Sublist series := by
  refine ⟨?_, ?_, ?_, List.filter_sublist _⟩
  · intro row hr
    exact (List.mem_filter.mp hr).2
  · intro row hcut
    exact List.count_filter hcut
  · intro row hcut hmem
    have h2 := (List.mem_filter.mp hmem).2
    rw [hcut] at h2
    cases h2

/-- Closed instance of `filter_window_exact` at the spec's concrete scenario
(sorted three-row series, window 1Y, now 2021-06-15). -/
theorem filter_window_exact_witness :
    List.Sorted refDateLe sampleSeries ∧
    ((∀ row ∈ filterSeries sampleSeries "1Y" sampleNow,
        dateLeB (getCutoffDate "1Y" sampleNow) (parseRefDate row) = true) ∧
      (∀ row, dateLeB (getCutoffDate "1Y" sampleNow) (parseRefDate row) = true →
        (filterSeries sampleSeries "1Y" sampleNow).count row = sampleSeries.count row) ∧
      (∀ row, dateLeB (getCutoffDate "1Y" sampleNow) (parseRefDate row) = false →
        row ∉ filterSeries sampleSeries "1Y" sampleNow) ∧
      (filterSeries sampleSeries "1Y" sampleNow).Sublist sampleSeries) :=
  ⟨by decide, filter_window_exact sampleSeries "1Y" sampleNow (by decide)⟩

/-- C2: building from a non-empty raw collection succeeds with the sorted
series, whose length equals the input length and which is non-decreasing in
the parsed reference date. -/
theorem build_sorted_length (l : List Row) (h : l ≠ []) :
    build (some l) = Except.ok (sortSeries l) ∧
    (sortSeries l).length = l.length ∧
    List.Sorted refDateLe (sortSeries l) := by
  refine ⟨?_, List.length_insertionSort _ _, List.sorted_insertionSort _ _⟩
  cases l with
  | nil => exact absurd rfl h
  | cons a t => rfl

/-- Closed instance of `build_sorted_length` at the sample series. -/
theorem build_sorted_length_witness :
    sampleSeries ≠ [] ∧
    (build (some sampleSeries) = Except.ok (sortSeries sampleSeries) ∧
      (sortSeries sampleSeries).length = sampleSeries.length ∧
      List.Sorted refDateLe (sortSeries sampleSeries)) :=
  ⟨by decide, build_sorted_length sampleSeries (by decide)⟩

/-- C4: normalization is total and always yields a well-formed concrete
timestamp — month below 12, day 1, midnight — for every raw record,
including records with absent or unparseable period labels. -/
theorem normalize_total_valid (row : Row) :
    ValidDateTime (normalize row).timestamp ∧
    (normalize row).timestamp.day = 1 ∧
    (normalize row).timestamp.hour = 0 ∧
    (normalize row).timestamp.minute = 0 ∧
    (normalize row).timestamp.second = 0 := by
  have hm : (monthMap (jsAbbr3 (row.reference_period_desc.getD ""))).getD 0 < 12 := by
    cases h : monthMap (jsAbbr3 (row.reference_period_desc.getD "")) with
    | none => simp
    | some m =>
      simpa using monthMap_lt_12 _ m h
  refine ⟨⟨hm, ?_, ?_, ?_, ?_, ?_⟩, rfl, rfl, rfl, rfl⟩
  · exact Nat.le_refl 1
  · exact (by norm_num : (1 : Nat) ≤ 31)
  · exact (by norm_num : (0 : Nat) < 24)
  · exact (by norm_num : (0 : Nat) < 60)
  · exact (by norm_num : (0 : Nat) < 60)

/-- C5: whenever the value parse is NaN — in particular for every value
string with no numeric prefix, for the empty string and for an absent value
— the normalized value is the distinguished absent marker, which is not the
number zero; the computation is total (no error path exists). -/
theorem nonnumeric_value_absent (v : Option String)
    (h : jsParseFloatField v = JsNum.nan) :
    normalizeValue v = NormValue.absent ∧ NormValue.absent ≠ NormValue.num 0 := by
  constructor
  · unfold normalizeValue
    rw [h]
  · intro hc
    cases hc

/-- Closed instances of `nonnumeric_value_absent` at "N/A", "" and an absent
value. -/
theorem nonnumeric_value_absent_witness :
    (jsParseFloatField (some "N/A") = JsNum.nan ∧
      normalizeValue (some "N/A") = NormValue.absent ∧
      NormValue.absent ≠ NormValue.num 0) ∧
    (jsParseFloatField (some "") = JsNum.nan ∧
      normalizeValue (some "") = NormValue.absent) ∧
    (jsParseFloatField none = JsNum.nan ∧
      normalizeValue none = NormValue.absent) :=
  ⟨⟨by decide, nonnumeric_value_absent (some "N/A") (by decide)⟩,
   ⟨by decide, (nonnumeric_value_absent (some "") (by decide)).1⟩,
   ⟨by decide, (nonnumeric_value_absent none (by decide)).1⟩⟩

/-- C6: building signals the distinguishable `noData` failure exactly on an
absent or empty raw collection, and a successful build never yields an empty
series. -/
theorem build_nodata_signal (input : Option (List Row)) :
    (build input = Except.error BuildError.noData ↔ input = none ∨ input = some []) ∧
    (∀ s, build input = Except.ok s → s ≠ []) := by
  constructor
  · constructor
    · intro h
      cases input with
      | none => exact Or.inl rfl
      | some l =>
        cases l with
        | nil => exact Or.inr rfl
        | cons a t => simp [build] at h
    · rintro (rfl | rfl) <;> rfl
  · intro s hs
    cases input with
    | none => simp [build] at hs
    | some l =>
      cases l with
      | nil => simp [build] at hs
      | cons a t =>
        have hse : s = sortSeries (a :: t) := by
          have := hs
          simp [build] at this
          exact this.symm
        subst hse
        have hlen : (sortSeries (a :: t)).length = (a :: t).length :=
          List.length_insertionSort _ _
        intro hnil
        rw [hnil] at hlen
        simp at hlen

/-- Closed instance of `build_nodata_signal`: a one-row build succeeds and
its result is non-empty, and an absent collection signals `noData`. -/
theorem build_nodata_signal_witness :
    build (some [rowJan21]) = Except.ok (sortSeries [rowJan21]) ∧
    sortSeries [rowJan21] ≠ [] ∧
    build none = Except.error BuildError.noData :=
  ⟨rfl, (build_nodata_signal (some [rowJan21])).2 (sortSeries [rowJan21]) rfl,
   (build_nodata_signal none).1.mpr (Or.inl rfl)⟩

/-- C7: every timeframe token outside the six recognized ones computes the
same cutoff as "1Y" at the same query time; the computation is total, so an
unrecognized token never errors. -/
theorem unknown_timeframe_fallback (tf : String) (now : DateTime)
    (h1 : tf ≠ "1M") (h2 : tf ≠ "3M") (h3 : tf ≠ "6M") (h4 : tf ≠ "1Y")
    (h5 : tf ≠ "5Y") (h6 : tf ≠ "10Y") :
    getCutoffDate tf now = getCutoffDate "1Y" now := by
  unfold getCutoffDate
  rw [if_neg h1, if_neg h2, if_neg h3, if_neg h4, if_neg h5, if_neg h6]
  rfl

/-- Closed instance of `unknown_timeframe_fallback` at the unrecognized token
"2Y". -/
theorem unknown_timeframe_fallback_witness :
    (("2Y" : String) ≠ "1M" ∧ ("2Y" : String) ≠ "3M" ∧ ("2Y" : String) ≠ "6M" ∧
      ("2Y" : String) ≠ "1Y" ∧ ("2Y" : String) ≠ "5Y" ∧ ("2Y" : String) ≠ "10Y") ∧
    getCutoffDate "2Y" sampleNow = getCutoffDate "1Y" sampleNow :=
  ⟨⟨by decide, by decide, by decide, by decide, by decide, by decide⟩,
   unknown_timeframe_fallback "2Y" sampleNow (by decide) (by decide) (by decide)
     (by decide) (by decide) (by decide)⟩

/-- C3 counterexample: the claim fails as stated, because the JS
`Date(year, month, day)` constructor reads an integer year in 0..99 as
1900 + year. At year 50 with the recognized abbreviation "JUN" the produced
timestamp's year is 1950, not the given year 50. -/
theorem refdate_year_adjust_cex :
    parseRefDate { year := 50, reference_period_desc := some "JUN", Value := none } =
      { year := 1950, month := 5, day := 1, hour := 0, minute := 0, second := 0 } ∧
    (1950 : Int) ≠ 50 := by
  exact ⟨by decide, by decide⟩

/-- C3 (amended): normalization uppercases the period label, truncates it to
its first three characters and looks it up in the fixed table JAN→0 … DEC→11;
a recognized abbreviation yields day 1, 00:00:00 of that month, and an
unrecognized, empty or absent label yields month 0 — in both cases of the
given year, except that a year in 0..99 is read as 1900 + year (the JS
`Date` constructor's two-digit-year rule). -/
theorem refdate_month_resolution (y : Int) (v : Option String) :
    (∀ p m, monthMap (jsAbbr3 p) = some m →
      parseRefDate { year := y, reference_period_desc := some p, Value := v } =
        { year := if 0 ≤ y ∧ y ≤ 99 then 1900 + y else y, month := m,
          day := 1, hour := 0, minute := 0, second := 0 }) ∧
    (∀ p, monthMap (jsAbbr3 p) = none →
      parseRefDate { year := y, reference_period_desc := some p, Value := v } =
        { year := if 0 ≤ y ∧ y ≤ 99 then 1900 + y else y, month := 0,
          day := 1, hour := 0, minute := 0, second := 0 }) ∧
    (parseRefDate { year := y, reference_period_desc := none, Value := v } =
        { year := if 0 ≤ y ∧ y ≤ 99 then 1900 + y else y, month := 0,
          day := 1, hour := 0, minute := 0, second := 0 }) ∧
    monthMap "JAN" = some 0 ∧ monthMap "FEB" = some 1 ∧ monthMap "MAR" = some 2 ∧
    monthMap "APR" = some 3 ∧ monthMap "MAY" = some 4 ∧ monthMap "JUN" = some 5 ∧
    monthMap "JUL" = some 6 ∧ monthMap "AUG" = some 7 ∧ monthMap "SEP" = some 8 ∧
    monthMap "OCT" = some 9 ∧ monthMap "NOV" = some 10 ∧ monthMap "DEC" = some 11 ∧
    monthMap "" = none := by
  refine ⟨?_, ?_, ?_, by decide, by decide, by decide, by decide, by decide, by decide,
    by decide, by decide, by decide, by decide, by decide, by decide, by decide⟩
  · intro p m h
    simp [parseRefDate, jsMakeYear, h]
  · intro p h
    simp [parseRefDate, jsMakeYear, h]
  · simp [parseRefDate, jsMakeYear, jsAbbr3, monthMap]

/-- Closed instances of `refdate_month_resolution`: the recognized label
"June" (truncated and uppercased to "JUN") resolves to month 5, and the
unrecognized label "xyz" defaults to month 0, both at year 2017. -/
theorem refdate_month_resolution_witness :
    (monthMap (jsAbbr3 "June") = some 5 ∧
      parseRefDate { year := 2017, reference_period_desc := some "June", Value := none } =
        { year := if 0 ≤ (2017 : Int) ∧ (2017 : Int) ≤ 99 then 1900 + 2017 else 2017,
          month := 5, day := 1, hour := 0, minute := 0, second := 0 }) ∧
    (monthMap (jsAbbr3 "xyz") = none ∧
      parseRefDate { year := 2017, reference_period_desc := some "xyz", Value := none } =
        { year := if 0 ≤ (2017 : Int) ∧ (2017 : Int) ≤ 99 then 1900 + 2017 else 2017,
          month := 0, day := 1, hour := 0, minute := 0, second := 0 }) :=
  ⟨⟨by decide, (refdate_month_resolution 2017 none).1 "June" 5 (by decide)⟩,
   ⟨by decide, (refdate_month_resolution 2017 none).2.1 "xyz" (by decide)⟩⟩

/-- The push loop is the pair of maps over the filtered rows. -/
theorem buildArrays_eq (l : List Row) :
    buildArrays l = (l.map rowLabel, l.map rowPrice) := by
  induction l with
  | nil => rfl
  | cons a t ih => simp [buildArrays, ih]

/-- C9: for every series, window and query time, the renderer receives two
index-aligned sequences of equal length: position `i` of the values sequence
is the parsed price of the `i`-th filtered row and position `i` of the labels
sequence is that row's formatted date; a row whose value parse is NaN keeps
its index, holding the absent entry (`none`), never zero and never dropped. -/
theorem labels_values_aligned (series : List Row) (tf : String) (now : DateTime) :
    (buildArrays (filterSeries series tf now)).1.length =
      (buildArrays (filterSeries series tf now)).2.length ∧
    (∀ i row, (filterSeries series tf now).get? i = some row →
      (buildArrays (filterSeries series tf now)).1.get? i = some (rowLabel row) ∧
      (buildArrays (filterSeries series tf now)).2.get? i = some (rowPrice row)) ∧
    (∀ i row, (filterSeries series tf now).get? i = some row →
      jsParseFloatField row.Value = JsNum.nan →
      (buildArrays (filterSeries series tf now)).2.get? i = some none) := by
  refine ⟨?_, ?_, ?_⟩
  · simp [buildArrays_eq]
  · intro i row h
    rw [List.get?_eq_getElem?] at h
    constructor
    · simp [buildArrays_eq, List.get?_eq_getElem?, List.getElem?_map, h]
    · simp [buildArrays_eq, List.get?_eq_getElem?, List.getElem?_map, h]
  · intro i row h hnan
    have hp : rowPrice row = none := by
      unfold rowPrice
      rw [hnan]
    rw [List.get?_eq_getElem?] at h
    simp [buildArrays_eq, List.get?_eq_getElem?, List.getElem?_map, h, hp]

/-- Closed instance of `labels_values_aligned` over the sample series with
the 10Y window: the malformed February 2020 value keeps index 1 as an absent
entry. -/
theorem labels_values_aligned_witness :
    (filterSeries sampleSeries "10Y" sampleNow).get? 1 = some rowFeb20 ∧
    jsParseFloatField rowFeb20.Value = JsNum.nan ∧
    (buildArrays (filterSeries sampleSeries "10Y" sampleNow)).2.get? 1 = some none :=
  ⟨by decide, by decide,
   (labels_values_aligned sampleSeries "10Y" sampleNow).2.2 1 rowFeb20
     (by decide) (by decide)⟩

/-- One click never removes or shadows an existing truthy cache entry: a
stored non-empty explanation survives any further click. -/
theorem click_preserves (c : List (String × String)) (label : String)
    (price : Option JsNum) (r : Except String String) (k : String) (e : String)
    (h : cacheLookup k c = some e) (he : e ≠ "") :
    cacheLookup k (handleChartClick c label price r).cache = some e := by
  unfold handleChartClick
  cases hl : cacheLookup (cacheKey label price) c with
  | some e2 =>
    by_cases h2 : e2 = ""
    · subst h2
      cases r with
      | error msg => simpa [hl, jsTruthy] using h
      | ok expl =>
        have hne : cacheKey label price ≠ k := by
          intro hk
          rw [hk, h] at hl
          cases hl
          exact he rfl
        simpa [hl, jsTruthy, cacheLookup, hne] using h
    · simpa [hl, jsTruthy, h2] using h
  | none =>
    cases r with
    | error msg => simpa [hl, jsTruthy] using h
    | ok expl =>
      have hne : cacheKey label price ≠ k := by
        intro hk
        rw [hk, h] at hl
        cases hl
      simpa [hl, jsTruthy, cacheLookup, hne] using h

/-- A stored non-empty explanation survives any sequence of further clicks. -/
theorem processClicks_preserves (events : List (String × Option JsNum × Except String String))
    (c : List (String × String)) (k : String) (e : String)
    (h : cacheLookup k c = some e) (he : e ≠ "") :
    cacheLookup k (processClicks c events) = some e := by
  induction events generalizing c with
  | nil => exact h
  | cons ev rest ih =>
    exact ih _ (click_preserves c ev.1 ev.2.1 ev.2.2 k e h he)

/-- C10 counterexample: the claim fails as stated, because the cache-hit test
`if (cacheRef.current[cacheKey])` is a truthiness check. A successful fetch
returning the empty-string explanation stores it under the key, yet the next
click on the same label and price sees a falsy cached value and performs
another explanation request instead of returning the stored explanation. -/
theorem explanation_cache_truthiness_cex :
    cacheLookup (cacheKey "Jan 1, 2021" (some (JsNum.num 2))) [] = none ∧
    (handleChartClick [] "Jan 1, 2021" (some (JsNum.num 2)) (Except.ok "")).cache =
      [(cacheKey "Jan 1, 2021" (some (JsNum.num 2)), "")] ∧
    cacheLookup (cacheKey "Jan 1, 2021" (some (JsNum.num 2)))
        (handleChartClick [] "Jan 1, 2021" (some (JsNum.num 2)) (Except.ok "")).cache
      = some "" ∧
    (handleChartClick
        (handleChartClick [] "Jan 1, 2021" (some (JsNum.num 2)) (Except.ok "")).cache
        "Jan 1, 2021" (some (JsNum.num 2)) (Except.ok "second fetch")).requested
      = true ∧
    (handleChartClick
        (handleChartClick [] "Jan 1, 2021" (some (JsNum.num 2)) (Except.ok "")).cache
        "Jan 1, 2021" (some (JsNum.num 2)) (Except.ok "second fetch")).explanation
      = "second fetch" := by
  refine ⟨rfl, ?_, ?_, ?_, ?_⟩ <;>
    simp [handleChartClick, cacheLookup, jsTruthy]

/-- C10 (amended): a click whose cached value for the key `label-price` is
falsy (absent, or a stored empty string) performs the explanation request,
and on success stores the result under that key; when the stored result is
non-empty, then through any sequence of further clicks, a click on a point
with the same label and price returns the stored explanation from the cache,
leaves the cache unchanged and performs no further request. (An empty-string
result is stored but stays falsy, so the next click re-requests.) -/
theorem explanation_cache_roundtrip (cache : List (String × String)) (label : String)
    (price : Option JsNum) (expl : String)
    (events : List (String × Option JsNum × Except String String))
    (laterFetch : Except String String)
    (h : jsTruthy (cacheLookup (cacheKey label price) cache) = false)
    (hne : expl ≠ "") :
    (handleChartClick cache label price (Except.ok expl)).requested = true ∧
    cacheLookup (cacheKey label price)
        (handleChartClick cache label price (Except.ok expl)).cache = some expl ∧
    cacheLookup (cacheKey label price)
        (processClicks (handleChartClick cache label price (Except.ok expl)).cache events)
      = some expl ∧
    handleChartClick
        (processClicks (handleChartClick cache label price (Except.ok expl)).cache events)
        label price laterFetch =
      { cache := processClicks (handleChartClick cache label price (Except.ok expl)).cache
          events,
        explanation := expl, requested := false } := by
  have h1 : cacheLookup (cacheKey label price)
      (handleChartClick cache label price (Except.ok expl)).cache = some expl := by
    simp [handleChartClick, h, cacheLookup]
  have h2 := processClicks_preserves events _ _ _ h1 hne
  refine ⟨?_, h1, h2, ?_⟩
  · simp [handleChartClick, h]
  · generalize hc2 : processClicks (handleChartClick cache label price
      (Except.ok expl)).cache events = c2 at h2 ⊢
    simp [handleChartClick, h2, jsTruthy, hne]

/-- Closed instance of `explanation_cache_roundtrip`: a first click on
("Jan 1, 2021", 2) fetches and stores its non-empty explanation; after an
unrelated click, a second click on the same point is served from the cache
with no request, even though the endpoint now fails. -/
theorem explanation_cache_roundtrip_witness :
    (jsTruthy (cacheLookup (cacheKey "Jan 1, 2021" (some (JsNum.num 2))) []) = false ∧
      ("avian flu culls" : String) ≠ "") ∧
    ((handleChartClick [] "Jan 1, 2021" (some (JsNum.num 2))
        (Except.ok "avian flu culls")).requested = true ∧
      cacheLookup (cacheKey "Jan 1, 2021" (some (JsNum.num 2)))
          (handleChartClick [] "Jan 1, 2021" (some (JsNum.num 2))
            (Except.ok "avian flu culls")).cache = some "avian flu culls" ∧
      cacheLookup (cacheKey "Jan 1, 2021" (some (JsNum.num 2)))
          (processClicks (handleChartClick [] "Jan 1, 2021" (some (JsNum.num 2))
              (Except.ok "avian flu culls")).cache
            [("Feb 1, 2020", none, Except.ok "other text")])
        = some "avian flu culls" ∧
      handleChartClick
          (processClicks (handleChartClick [] "Jan 1, 2021" (some (JsNum.num 2))
              (Except.ok "avian flu culls")).cache
            [("Feb 1, 2020", none, Except.ok "other text")])
          "Jan 1, 2021" (some (JsNum.num 2)) (Except.error "service down") =
        { cache := processClicks (handleChartClick [] "Jan 1, 2021"
              (some (JsNum.num 2)) (Except.ok "avian flu culls")).cache
            [("Feb 1, 2020", none, Except.ok "other text")],
          explanation := "avian flu culls", requested := false }) :=
  ⟨⟨rfl, by decide⟩,
   explanation_cache_roundtrip [] "Jan 1, 2021" (some (JsNum.num 2))
     "avian flu culls" [("Feb 1, 2020", none, Except.ok "other text")]
     (Except.error "service down") rfl (by decide)⟩

/-- Digit printing and reading round-trip. -/
theorem digitVal_digitChar : ∀ n : Nat, n < 10 → digitVal (Nat.digitChar n) = some n := by
  decide

/-- A decimal digit character is not a space. -/
theorem digitChar_ne_space : ∀ n : Nat, n < 10 → Nat.digitChar n ≠ ' ' := by
  decide

/-- Replacing the first space in `l1 ++ ' ' :: l2`, with `l1` space-free,
replaces exactly the separator. -/
theorem replaceFirstSpace_append (l1 l2 : List Char) (h : ∀ c ∈ l1, c ≠ ' ') :
    replaceFirstSpace (l1 ++ ' ' :: l2) = l1 ++ 'T' :: l2 := by
  induction l1 with
  | nil => simp [replaceFirstSpace]
  | cons c t ih =>
    have hc : c ≠ ' ' := h c (List.mem_cons_self c t)
    simp [replaceFirstSpace, hc, ih fun x hx => h x (List.mem_cons_of_mem c hx)]

/-- The date block `YYYY-MM-DD` contains no space. -/
theorem datePart_no_space (y mo d : Nat) (hy : y < 10000) (hmo : mo < 100)
    (hd : d < 100) : ∀ c ∈ datePartChars y mo d, c ≠ ' ' := by
  intro c hc
  simp [datePartChars, pad4, pad2] at hc
  rcases hc with rfl | rfl | rfl | rfl | rfl | rfl | rfl | rfl | rfl | rfl <;>
    first
      | decide
      | exact digitChar_ne_space _ (by omega)

/-- Reading back two printed digits. -/
theorem parse2_pad2 (n : Nat) (hn : n < 100) (r : List Char) :
    parse2 (pad2 n ++ r) = some (n, r) := by
  have h1 : n / 10 < 10 := by omega
  have h2 : n % 10 < 10 := by omega
  simp [pad2, parse2, digitVal_digitChar _ h1, digitVal_digitChar _ h2]
  omega

/-- Reading back two printed digits at the end of the input. -/
theorem parse2_pad2_end (n : Nat) (hn : n < 100) :
    parse2 (pad2 n) = some (n, []) := by
  have := parse2_pad2 n hn []
  simpa using this

/-- Reading back four printed digits. -/
theorem parse4_pad4 (n : Nat) (hn : n < 10000) (r : List Char) :
    parse4 (pad4 n ++ r) = some (n, r) := by
  have h1 : n / 1000 < 10 := by omega
  have h2 : n / 100 % 10 < 10 := by omega
  have h3 : n / 10 % 10 < 10 := by omega
  have h4 : n % 10 < 10 := by omega
  simp [pad4, parse4, digitVal_digitChar _ h1, digitVal_digitChar _ h2,
    digitVal_digitChar _ h3, digitVal_digitChar _ h4]
  omega

/-- Expecting the character that is there. -/
theorem expectChar_cons (c : Char) (r : List Char) : expectChar c (c :: r) = some r := by
  simp [expectChar]

/-- No month is longer than 31 days. -/
theorem daysInMonth_le_31 (y : Int) (m : Nat) : daysInMonth y m ≤ 31 := by
  unfold daysInMonth
  split
  · split <;> omega
  · split <;> omega

/-- C8: a `load_time` value of the form `YYYY-MM-DD HH:MM:SS` (here: any real
calendar date-time in that form) is normalized by replacing the separating
space with 'T', which yields exactly the result of parsing the
`YYYY-MM-DDTHH:MM:SS` string directly, and the parsed timestamp preserves
the time-of-day `HH:MM:SS`. -/
theorem loadtime_space_to_t (y mo d h mi s : Nat)
    (hy : y < 10000) (hmo1 : 1 ≤ mo) (hmo2 : mo ≤ 12) (hd1 : 1 ≤ d)
    (hd2 : d ≤ daysInMonth (y : Int) (mo - 1)) (hh : h ≤ 23) (hmi : mi ≤ 59)
    (hs : s ≤ 59) :
    parseLoadTime (mkLoadStr y mo d h mi s) = jsDateParse (mkIsoStr y mo d h mi s) ∧
    jsDateParse (mkIsoStr y mo d h mi s) =
      some { year := (y : Int), month := mo - 1, day := d, hour := h, minute := mi,
             second := s } := by
  have hd31 : d ≤ 31 := le_trans hd2 (daysInMonth_le_31 _ _)
  have hrep : jsReplaceSpaceT (mkLoadStr y mo d h mi s) = mkIsoStr y mo d h mi s := by
    unfold jsReplaceSpaceT mkLoadStr mkIsoStr
    have := replaceFirstSpace_append (datePartChars y mo d) (timePartChars h mi s)
      (datePart_no_space y mo d hy (by omega) (by omega))
    simp [this]
  have hroll : ¬ d > daysInMonth (y : Int) (mo - 1) := by omega
  have hparse : jsDateParse (mkIsoStr y mo d h mi s) =
      some { year := (y : Int), month := mo - 1, day := d, hour := h, minute := mi,
             second := s } := by
    unfold jsDateParse mkIsoStr datePartChars timePartChars
    simp [List.append_assoc, List.cons_append, parse4_pad4 y hy,
      parse2_pad2 mo (by omega), parse2_pad2 d (by omega), parse2_pad2 h (by omega),
      parse2_pad2 mi (by omega), parse2_pad2_end s (by omega), expectChar_cons,
      hmo1, hmo2, hd1, hd31, hh, hmi, hs, normDay, hroll]
  refine ⟨?_, hparse⟩
  unfold parseLoadTime
  rw [hrep]

/-- Closed instance of `loadtime_space_to_t` at "2022-04-29 10:30:05". -/
theorem loadtime_space_to_t_witness :
    ((2022 : Nat) < 10000 ∧ (1 : Nat) ≤ 4 ∧ (4 : Nat) ≤ 12 ∧ (1 : Nat) ≤ 29 ∧
      (29 : Nat) ≤ daysInMonth ((2022 : Nat) : Int) (4 - 1) ∧ (10 : Nat) ≤ 23 ∧
      (30 : Nat) ≤ 59 ∧ (5 : Nat) ≤ 59) ∧
    (parseLoadTime (mkLoadStr 2022 4 29 10 30 5) =
        jsDateParse (mkIsoStr 2022 4 29 10 30 5) ∧
      jsDateParse (mkIsoStr 2022 4 29 10 30 5) =
        some { year := ((2022 : Nat) : Int), month := 4 - 1, day := 29, hour := 10,
               minute := 30, second := 5 }) :=
  ⟨⟨by decide, by decide, by decide, by decide, by decide, by decide, by decide,
    by decide⟩,
   loadtime_space_to_t 2022 4 29 10 30 5 (by decide) (by decide) (by decide)
     (by decide) (by decide) (by decide) (by decide) (by decide)⟩

end EggPrices
